import Mathlib

/-!
Verification development for the subscription-orchestration core:
intent registry, subscription ledger, agent-run coordinator, checkout
orchestrator, billing bridge, renewal scheduler and webhook reconciler.
Each definition is a shallow embedding of the corresponding TypeScript
function; theorems settle the stated behavioural claims.
-/

namespace Charm

/-! ## Billing Bridge: calculateMonthlyProratedAmount
(src/lib/integrations/stripe.ts).  JS `Math.round` rounds half toward
positive infinity, i.e. `⌊x + 1/2⌋`; arithmetic is modelled over `ℚ`. -/

def jsRound (q : ℚ) : ℤ := ⌊q + 1 / 2⌋

/-- The three description regimes of `calculateMonthlyProratedAmount`;
string rendering is abstracted to the data it interpolates. -/
inductive ChargeDescription where
  | monthlyDelivery
  | timesPerMonth (fullOccurrences : ℕ) (cadenceDays : ℕ)
  | approxTimesPerMonth (occurrences : ℚ) (cadenceDays : ℕ)
  | belowMonthly (cadenceDays : ℕ) (occurrences : ℚ)
deriving DecidableEq

structure ProratedAmount where
  totalCents : ℤ
  occurrences : ℚ
  description : ChargeDescription
deriving DecidableEq

def calculateMonthlyProratedAmount (productPriceCents : ℕ) (cadenceDays : ℕ) :
    ProratedAmount :=
  let BILLING_CYCLE_DAYS : ℚ := 30
  let occurrences : ℚ := BILLING_CYCLE_DAYS / cadenceDays
  let totalCents : ℤ := jsRound (productPriceCents * occurrences)
  let description : ChargeDescription :=
    if cadenceDays = 30 then .monthlyDelivery
    else if cadenceDays < 30 then
      let fullOccurrences : ℕ := ⌊occurrences⌋.toNat
      let fracPercent : ℤ := jsRound ((occurrences - fullOccurrences) * 100)
      if fracPercent = 0 then .timesPerMonth fullOccurrences cadenceDays
      else .approxTimesPerMonth occurrences cadenceDays
    else .belowMonthly cadenceDays occurrences
  ⟨totalCents, occurrences, description⟩

/-- Shorthand for the cents amount of a prorated charge. -/
def prorateTotalCents (productPriceCents : ℕ) (cadenceDays : ℕ) : ℤ :=
  (calculateMonthlyProratedAmount productPriceCents cadenceDays).totalCents

/-! ## Data model (src/server/db/schema.ts)

Rows carry the columns the orchestration core reads or writes.  Ids,
user ids, titles and error messages are opaque tokens modelled as `ℕ`;
timestamps are `ℤ` (a day is one unit, matching the day-granular date
arithmetic of the source). -/

inductive IntentStatus where
  | active | paused | canceled | error
deriving DecidableEq

inductive SubStatus where
  | active | paused | canceled
deriving DecidableEq

inductive FeeStatus where
  | active | canceled | pastDue
deriving DecidableEq

structure Intent where
  id : ℕ
  userId : ℕ
  title : ℕ
  cadenceDays : ℕ
  maxPriceCents : Option ℕ
  status : IntentStatus
  canceledAt : Option ℤ
  updatedAt : ℤ
deriving DecidableEq

structure Subscription where
  id : ℕ
  userId : ℕ
  intentId : Option ℕ
  addressId : Option ℕ
  lastPriceCents : Option ℕ
  renewalFrequencyDays : ℕ
  status : SubStatus
  nextRenewalAt : Option ℤ
  canceledAt : Option ℤ
  updatedAt : ℤ
deriving DecidableEq

structure Address where
  id : ℕ
deriving DecidableEq

/-- A processor-side charge line item (stripe.invoiceItems.create),
keeping the metadata fields the claims mention. -/
structure Charge where
  userId : ℕ
  subscriptionIntentId : ℕ
  subscriptionId : Option ℕ
  amountCents : ℤ
deriving DecidableEq

/-- A `stripeFee` row: the owner's recurring billing vehicle. -/
structure Fee where
  userId : ℕ
  stripeSubscriptionId : ℕ
  amount : ℕ
  status : FeeStatus
  canceledAt : Option ℤ
  createdAt : ℤ
deriving DecidableEq

structure DB where
  intents : List Intent
  subs : List Subscription
  addresses : List Address
  charges : List Charge
  fees : List Fee
deriving DecidableEq

/-! ## Query layer (src/server/db/queries.ts) -/

/-- `getSubscriptionsDueForRenewal`: active subscriptions whose
`nextRenewalAt` is in the past or within the next day (SQL `lte`
against a NULL `nextRenewalAt` is false). -/
def getSubscriptionsDueForRenewal (now : ℤ) (db : DB) : List Subscription :=
  db.subs.filter fun s =>
    s.status == .active &&
      match s.nextRenewalAt with
      | some d => decide (d ≤ now + 1)
      | none => false

/-- `updateSubscriptionStatus`: set the status (and `updatedAt`) of one
subscription row. -/
def updateSubscriptionStatus (now : ℤ) (subId : ℕ) (st : SubStatus) (db : DB) :
    DB :=
  { db with subs := db.subs.map fun s =>
      if s.id = subId then { s with status := st, updatedAt := now } else s }

/-- `deleteSubscriptionIntent` (soft delete): mark the intent canceled with
`canceledAt`, then cancel every subscription whose `intentId` references
it. -/
def deleteSubscriptionIntent (now : ℤ) (intentId : ℕ) (db : DB) : DB :=
  { db with
    intents := db.intents.map fun i =>
      if i.id = intentId then
        { i with status := .canceled, canceledAt := some now, updatedAt := now }
      else i,
    subs := db.subs.map fun s =>
      if s.intentId = some intentId then
        { s with status := .canceled, canceledAt := some now, updatedAt := now }
      else s }

/-- A small concrete state for the C9 witness: one active intent (id 5)
and one linked active subscription (id 9) due now. -/
def sampleC9DB : DB :=
  { intents := [⟨5, 1, 0, 30, none, .active, none, 0⟩],
    subs := [⟨9, 1, some 5, some 2, some 1000, 30, .active, some 0, none, 0⟩],
    addresses := [⟨2⟩],
    charges := [],
    fees := [] }

/-! ## Renewal Scheduler (src/app/api/renewals/due/route.ts, POST)

The sweep iterates over the due subscriptions strictly sequentially.
`executeCheckout` and `chargeForCheckout` are external I/O and enter the
model as per-subscription oracles. -/

/-- Outcome of `executeCheckout` for one renewal item. -/
inductive CheckoutOutcome where
  | ok
  | failedWith (e : ℕ)
  | thrown (e : ℕ)
deriving DecidableEq

/-- Error strings pushed into `results.errors` (one token per message
shape, carrying the interpolated error code where present). -/
inductive ErrTok where
  | missingAddress
  | addressNotFound
  | intentNotFound
  | checkoutFailed (e : ℕ)
  | thrown (e : ℕ)
deriving DecidableEq

/-- The `results` accumulator of the sweep. -/
structure Report where
  total : ℕ
  processed : ℕ
  succeeded : ℕ
  failed : ℕ
  errors : List (ℕ × ErrTok)
deriving DecidableEq

/-- External behaviour during one sweep: `checkout` is the outcome of
`executeCheckout` per subscription id, `chargeThrows` the exception (if
any) of `chargeForCheckout`, `now` the sweep time. -/
structure SweepEnv where
  checkout : ℕ → CheckoutOutcome
  chargeThrows : ℕ → Option ℕ
  now : ℤ

/-- The `db.update(subscription).set({nextRenewalAt, updatedAt})` step:
next renewal is `renewalFrequencyDays` after the sweep time. -/
def advanceNextRenewal (now : ℤ) (subId : ℕ) (db : DB) : DB :=
  { db with subs := db.subs.map fun s =>
      if s.id = subId then
        { s with nextRenewalAt := some (now + s.renewalFrequencyDays),
                 updatedAt := now }
      else s }

/-- The charge row `chargeForCheckout` appends to the owner's next monthly
invoice (chargeImmediately = false → `appendInvoiceItemForSubscription`):
prorated from the last known price and the intent's cadence. -/
def renewalChargeRow (fullSub : Subscription) (intent : Intent) (price : ℕ) :
    Charge :=
  ⟨fullSub.userId, intent.id, none, prorateTotalCents price intent.cadenceDays⟩

/-- One iteration of the sweep loop over a due subscription id, mirroring
the `try { … } catch { … }` body of the route. -/
def processDueSubscription (env : SweepEnv) (st : DB × Report) (subId : ℕ) :
    DB × Report :=
  let db := st.1
  let r := st.2
  match db.subs.find? (fun s => s.id == subId) with
  | none => (db, { r with errors := r.errors ++ [(subId, .missingAddress)] })
  | some fullSub =>
    match fullSub.addressId with
    | none => (db, { r with errors := r.errors ++ [(subId, .missingAddress)] })
    | some aid =>
      match db.addresses.find? (fun a => a.id == aid) with
      | none => (db, { r with errors := r.errors ++ [(subId, .addressNotFound)] })
      | some _ =>
        match fullSub.intentId.bind
            (fun iid => db.intents.find? (fun i => i.id == iid)) with
        | none => (db, { r with errors := r.errors ++ [(subId, .intentNotFound)] })
        | some intent =>
          match env.checkout subId with
          | .thrown e =>
              (db, { r with failed := r.failed + 1,
                            errors := r.errors ++ [(subId, .thrown e)] })
          | .failedWith e =>
              (updateSubscriptionStatus env.now subId .paused db,
               { r with processed := r.processed + 1,
                        failed := r.failed + 1,
                        errors := r.errors ++ [(subId, .checkoutFailed e)] })
          | .ok =>
              let price := fullSub.lastPriceCents.getD 0
              if 0 < price then
                match env.chargeThrows subId with
                | some e =>
                    (db, { r with processed := r.processed + 1,
                                  failed := r.failed + 1,
                                  errors := r.errors ++ [(subId, .thrown e)] })
                | none =>
                    (advanceNextRenewal env.now subId
                      { db with charges :=
                          db.charges ++ [renewalChargeRow fullSub intent price] },
                     { r with processed := r.processed + 1,
                              succeeded := r.succeeded + 1 })
              else
                (advanceNextRenewal env.now subId db,
                 { r with processed := r.processed + 1,
                          succeeded := r.succeeded + 1 })

def runSweepFrom (env : SweepEnv) (st : DB × Report) (ids : List ℕ) :
    DB × Report :=
  ids.foldl (processDueSubscription env) st

/-- The whole POST body after the secret gate: select due subscriptions,
then process them sequentially starting from an all-zero report whose
`total` is the number found. -/
def renewalsDuePOST (env : SweepEnv) (db : DB) : DB × Report :=
  let due := (getSubscriptionsDueForRenewal env.now db).map (·.id)
  runSweepFrom env (db, ⟨due.length, 0, 0, 0, []⟩) due

/-! ### Per-item characterization of the sweep

`classifyDueSubscription` computes, from the pre-sweep state alone, the
report contribution of one due subscription; `applyRenewalEffect` the
state change.  The loop body equals their combination, and effects leave
every item's classification unchanged, which yields a closed form for the
sweep report: each item contributes independently, so no per-item failure
can abort or alter the processing of the rest. -/

structure ItemDelta where
  processed : ℕ
  succeeded : ℕ
  failed : ℕ
  errors : List (ℕ × ErrTok)
deriving DecidableEq

def addDelta (r : Report) (d : ItemDelta) : Report :=
  ⟨r.total, r.processed + d.processed, r.succeeded + d.succeeded,
   r.failed + d.failed, r.errors ++ d.errors⟩

def classifyFound (env : SweepEnv) (addresses : List Address)
    (intents : List Intent) (subId : ℕ) (addressId : Option ℕ)
    (intentIdOpt : Option ℕ) (lastPriceCents : Option ℕ) : ItemDelta :=
  match addressId with
  | none => ⟨0, 0, 0, [(subId, .missingAddress)]⟩
  | some aid =>
    match addresses.find? (fun a => a.id == aid) with
    | none => ⟨0, 0, 0, [(subId, .addressNotFound)]⟩
    | some _ =>
      match intentIdOpt.bind (fun iid => intents.find? (fun i => i.id == iid)) with
      | none => ⟨0, 0, 0, [(subId, .intentNotFound)]⟩
      | some _ =>
        match env.checkout subId with
        | .thrown e => ⟨0, 0, 1, [(subId, .thrown e)]⟩
        | .failedWith e => ⟨1, 0, 1, [(subId, .checkoutFailed e)]⟩
        | .ok =>
          if 0 < lastPriceCents.getD 0 then
            match env.chargeThrows subId with
            | some e => ⟨1, 0, 1, [(subId, .thrown e)]⟩
            | none => ⟨1, 1, 0, []⟩
          else ⟨1, 1, 0, []⟩

def classifyDueSubscription (env : SweepEnv) (db : DB) (subId : ℕ) : ItemDelta :=
  match db.subs.find? (fun s => s.id == subId) with
  | none => ⟨0, 0, 0, [(subId, .missingAddress)]⟩
  | some fullSub =>
      classifyFound env db.addresses db.intents subId fullSub.addressId
        fullSub.intentId fullSub.lastPriceCents

def applyRenewalEffect (env : SweepEnv) (db : DB) (subId : ℕ) : DB :=
  match db.subs.find? (fun s => s.id == subId) with
  | none => db
  | some fullSub =>
    match fullSub.addressId with
    | none => db
    | some aid =>
      match db.addresses.find? (fun a => a.id == aid) with
      | none => db
      | some _ =>
        match fullSub.intentId.bind
            (fun iid => db.intents.find? (fun i => i.id == iid)) with
        | none => db
        | some intent =>
          match env.checkout subId with
          | .thrown _ => db
          | .failedWith _ => updateSubscriptionStatus env.now subId .paused db
          | .ok =>
            let price := fullSub.lastPriceCents.getD 0
            if 0 < price then
              match env.chargeThrows subId with
              | some _ => db
              | none =>
                  advanceNextRenewal env.now subId
                    { db with charges :=
                        db.charges ++ [renewalChargeRow fullSub intent price] }
            else advanceNextRenewal env.now subId db

/-- The projection of the subscription table that determines an item's
classification: existence of the row plus its address, intent and price
columns. -/
def subView (db : DB) (t : ℕ) : Option (Option ℕ × Option ℕ × Option ℕ) :=
  (db.subs.find? (fun s => s.id == t)).map fun s =>
    (s.addressId, s.intentId, s.lastPriceCents)

/-- Intent rows 11/12/13 and subscriptions 1/2/3 for the three-item sweep
scenario: all lookups resolve and every price is known. -/
def sampleSweepIntent (i : ℕ) : Intent := ⟨10 + i, 1, 0, 30, none, .active, none, 0⟩

def sampleSweepSub (i : ℕ) : Subscription :=
  ⟨i, 1, some (10 + i), some 2, some 1000, 30, .active, some 0, none, 0⟩

def sampleSweepDB : DB :=
  { intents := [sampleSweepIntent 1, sampleSweepIntent 2, sampleSweepIntent 3],
    subs := [sampleSweepSub 1, sampleSweepSub 2, sampleSweepSub 3],
    addresses := [⟨2⟩],
    charges := [],
    fees := [] }

/-- Sweep behaviour in which exactly item 2 throws. -/
def sampleSweepEnv : SweepEnv :=
  { checkout := fun i => if i = 2 then .thrown 99 else .ok,
    chargeThrows := fun _ => none,
    now := 0 }

/-! ## Agent Run Coordinator and Checkout Orchestrator
(src/server/agents/checkout.ts; agent_run mutations also in
src/app/api/chat/route.ts and src/server/db/queries.ts) -/

inductive Phase where
  | plan | checkout | done | failed
deriving DecidableEq

/-- An `agent_run` row (the columns the orchestration mutates). -/
structure RunRow where
  phase : Phase
  endedAt : Option ℤ
  sessionId : Option ℕ
  error : Option ℕ
  output : Option ℕ
deriving DecidableEq

/-- The specified row invariant: `endedAt` is set iff the run is
terminal (done or failed). -/
def runInvariant (r : RunRow) : Prop :=
  r.endedAt.isSome ↔ (r.phase = .done ∨ r.phase = .failed)

instance (r : RunRow) : Decidable (runInvariant r) := by
  unfold runInvariant; infer_instance

/-- Insert of a fresh checkout-phase run (no endedAt). -/
def freshCheckoutRun (sid : Option ℕ) : RunRow :=
  ⟨.checkout, none, sid, none, none⟩

/-- The update that stores the browser session id on a caller-provided
run (checkout.ts, provided-id branch). -/
def setBrowserbaseSession (sid : Option ℕ) (r : RunRow) : RunRow :=
  { r with sessionId := sid }

/-- The strategy-completion update: phase done, output stored, endedAt
set. -/
def markRunDone (t : ℤ) (out : ℕ) (r : RunRow) : RunRow :=
  { r with phase := .done, output := some out, endedAt := some t }

/-- The exception-path update: phase failed, error text stored, endedAt
set. -/
def markRunFailed (t : ℤ) (e : ℕ) (r : RunRow) : RunRow :=
  { r with phase := .failed, error := some e, endedAt := some t }

/-- The generic `updateAgentRun({id, updates})` of the query layer: each
provided column is written as-is, absent columns are kept. -/
structure AgentRunUpdates where
  phase : Option Phase
  output : Option ℕ
  error : Option ℕ
  endedAt : Option ℤ
deriving DecidableEq

def updateAgentRun (u : AgentRunUpdates) (r : RunRow) : RunRow :=
  { r with
    phase := u.phase.getD r.phase,
    output := match u.output with | some o => some o | none => r.output,
    error := match u.error with | some e => some e | none => r.error,
    endedAt := match u.endedAt with | some t => some t | none => r.endedAt }

/-- Phase progression order: plan before checkout before the two
terminal phases; a terminal phase only relates to itself. -/
def Phase.rank : Phase → ℕ
  | .plan => 0
  | .checkout => 1
  | .done => 2
  | .failed => 2

def phaseStep (a b : Phase) : Prop :=
  a.rank ≤ b.rank ∧ ((a = .done ∨ a = .failed) → b = a)

instance (a b : Phase) : Decidable (phaseStep a b) := by
  unfold phaseStep; infer_instance

/-- Result record of `executeCheckout` (fields the claims mention). -/
structure CheckoutResult where
  success : Bool
  requiresManualIntervention : Bool
  interventionReason : Option ℕ
  error : Option ℕ
  sessionId : Option ℕ
deriving DecidableEq

/-- Token for the literal intervention reason "Payment confirmation
required". -/
def paymentConfirmationRequired : ℕ := 0

/-- External behaviour of one checkout attempt: whether `stagehand.init`
throws, the outcome of the single `stagehand.act` strategy instruction,
the browser session id, and the wall-clock time. -/
structure CheckoutAttemptEnv where
  initOk : Bool
  initErr : ℕ
  act : Except ℕ ℕ
  sessionId : ℕ
  time : ℤ

structure AttemptOutcome where
  result : CheckoutResult
  run : Option RunRow
  runTrace : List RunRow
  actCalls : ℕ
deriving DecidableEq

/-- `executeCheckout`: allocate or reuse the tracking row, run the
strategy (native and manual share the same act/update/return shape), halt
before final payment confirmation on success, mark the run failed and
return `success=false` on any exception.  `runTrace` records the
successive states of the tracking row; `actCalls` counts invocations of
the external capability. -/
def executeCheckout (env : CheckoutAttemptEnv) (provided : Option RunRow) :
    AttemptOutcome :=
  if env.initOk then
    let run0 :=
      match provided with
      | none => freshCheckoutRun (some env.sessionId)
      | some r => setBrowserbaseSession (some env.sessionId) r
    let baseTrace :=
      match provided with
      | none => [run0]
      | some r => [r, run0]
    match env.act with
    | .error e =>
        let r1 := markRunFailed env.time e run0
        ⟨⟨false, false, none, some e, none⟩, some r1, baseTrace ++ [r1], 1⟩
    | .ok out =>
        let r1 := markRunDone env.time out run0
        ⟨⟨true, true, some paymentConfirmationRequired, none, some env.sessionId⟩,
         some r1, baseTrace ++ [r1], 1⟩
  else
    match provided with
    | some r =>
        let r1 := markRunFailed env.time env.initErr r
        ⟨⟨false, false, none, some env.initErr, none⟩, some r1, [r, r1], 0⟩
    | none =>
        ⟨⟨false, false, none, some env.initErr, none⟩, none, [], 0⟩

/-! ### Run tracking table (for the coordinator's create-or-reuse logic) -/

structure TrackedRun where
  id : ℕ
  row : RunRow
deriving DecidableEq

/-- The run-allocation step of `executeCheckout`: with no caller-supplied
id a fresh row is inserted; with a caller-supplied id the existing row is
updated (browserbase session id) and no row is inserted. -/
def coordinatorCreate (runs : List TrackedRun) (provided : Option ℕ)
    (freshId : ℕ) (sid : Option ℕ) : List TrackedRun × ℕ :=
  match provided with
  | none => (runs ++ [⟨freshId, freshCheckoutRun sid⟩], freshId)
  | some i =>
      (runs.map fun tr =>
        if tr.id = i then ⟨tr.id, setBrowserbaseSession sid tr.row⟩ else tr, i)

/-- Transition of a tracked run to done (phase done, output, endedAt). -/
def transitionRunDone (runs : List TrackedRun) (i : ℕ) (t : ℤ) (out : ℕ) :
    List TrackedRun :=
  runs.map fun tr => if tr.id = i then ⟨tr.id, markRunDone t out tr.row⟩ else tr

/-! ## Webhook Reconciler (src/app/api/webhooks/stripe/route.ts) -/

structure WebhookResponse where
  status : ℕ
  received : Bool
deriving DecidableEq

/-- The POST body: reject without a signature header (400), reject when
the webhook secret is unconfigured (500), reject when verification fails
(400); only then dispatch the event handler, answering 200 `{received:
true}` on normal return and 500 when the handler throws.  The handler is
abstract; a thrown handler carries the (possibly partially mutated)
state. -/
def stripeWebhookPOST (hasSignature secretConfigured signatureValid : Bool)
    (handler : DB → Except DB DB) (db : DB) : WebhookResponse × DB :=
  if hasSignature = false then (⟨400, false⟩, db)
  else if secretConfigured = false then (⟨500, false⟩, db)
  else if signatureValid = false then (⟨400, false⟩, db)
  else
    match handler db with
    | .ok db1 => (⟨200, true⟩, db1)
    | .error db1 => (⟨500, false⟩, db1)

/-! ### checkout.session.completed (handleCheckoutSessionCompleted) -/

inductive SessionMode where
  | subscriptionMode | paymentMode | setupMode
deriving DecidableEq

structure CheckoutSession where
  mode : SessionMode
  userId : Option ℕ
  subscriptionId : Option ℕ
deriving DecidableEq

/-- `handleCheckoutSessionCompleted`: skip non-subscription sessions,
sessions without a userId or subscription id, and sessions whose external
recurring-billing id already has a `stripeFee` row; otherwise insert one
row (amount "100", status active). -/
def handleCheckoutSessionCompleted (now : ℤ) (s : CheckoutSession) (db : DB) :
    DB :=
  if s.mode ≠ .subscriptionMode then db
  else
    match s.userId with
    | none => db
    | some u =>
      match s.subscriptionId with
      | none => db
      | some sid =>
        match db.fees.find? (fun f => f.stripeSubscriptionId == sid) with
        | some _ => db
        | none =>
            { db with fees := db.fees ++ [⟨u, sid, 100, .active, none, now⟩] }

/-! ### invoice.created (handleInvoiceCreated)

When a new periodic invoice opens, the handler finds the owner through the
`stripeFee` row of the invoice's recurring-billing id and loops over the
owner's active subscriptions, appending one prorated charge each.  The
whole loop sits inside a single try/catch: a throwing
`stripe.invoiceItems.create` jumps to the catch, which swallows the error
(the invoice proceeds) — but the remaining subscriptions of that loop are
not processed. -/

structure StripeInvoice where
  subscriptionId : Option ℕ
  customerId : Option ℕ
deriving DecidableEq

/-- The invoice item created for one subscription: prorated from the
subscription's last known price and its renewal cadence. -/
def invoiceChargeRow (sub : Subscription) (intent : Intent) (price : ℕ) :
    Charge :=
  ⟨sub.userId, intent.id, some sub.id,
   prorateTotalCents price sub.renewalFrequencyDays⟩

/-- The charge the loop would create for one subscription; `none` when the
subscription is skipped (unknown or zero price, or unresolvable intent). -/
def invoiceChargeFor (intents : List Intent) (s : Subscription) :
    Option Charge :=
  match s.lastPriceCents with
  | none => none
  | some price =>
    if price = 0 then none
    else
      match s.intentId.bind (fun iid => intents.find? fun i => i.id == iid) with
      | none => none
      | some intent => some (invoiceChargeRow s intent price)

/-- The `for (const sub of activeSubscriptions)` loop body; a failing
append returns the state accumulated so far (the catch). -/
def appendInvoiceItems (appendOk : ℕ → Bool) : DB → List Subscription → DB
  | db, [] => db
  | db, s :: rest =>
    match s.lastPriceCents with
    | none => appendInvoiceItems appendOk db rest
    | some price =>
      if price = 0 then appendInvoiceItems appendOk db rest
      else
        match s.intentId.bind (fun iid => db.intents.find? fun i => i.id == iid) with
        | none => appendInvoiceItems appendOk db rest
        | some intent =>
          if appendOk s.id then
            appendInvoiceItems appendOk
              { db with charges := db.charges ++ [invoiceChargeRow s intent price] }
              rest
          else db

def handleInvoiceCreated (appendOk : ℕ → Bool) (inv : StripeInvoice)
    (db : DB) : DB :=
  match inv.subscriptionId with
  | none => db
  | some subscrId =>
    match inv.customerId with
    | none => db
    | some _ =>
      match db.fees.find? (fun f => f.stripeSubscriptionId == subscrId) with
      | none => db
      | some feeRec =>
          appendInvoiceItems appendOk db
            (db.subs.filter fun s =>
              s.userId == feeRec.userId && s.status == .active)

def sampleInvoiceDB : DB :=
  { intents := [sampleSweepIntent 1, sampleSweepIntent 2],
    subs := [sampleSweepSub 1, sampleSweepSub 2],
    addresses := [⟨2⟩],
    charges := [],
    fees := [⟨1, 77, 100, .active, none, 0⟩] }

/-! ## Theorems -/

theorem prorateTotalCents_def (p c : ℕ) :
    prorateTotalCents p c = ⌊(p : ℚ) * (30 / c) + 1 / 2⌋ := rfl

theorem jsRound_eq_round (q : ℚ) : jsRound q = round q := (round_eq q).symm

theorem jsRound_le_jsRound {a b : ℚ} (h : a ≤ b) : jsRound a ≤ jsRound b :=
  Int.floor_le_floor (by linarith)

/-- Claim C1: for every `productPriceCents` and positive `cadenceDays`,
`calculateMonthlyProratedAmount` returns
`totalCents = round(productPriceCents * (30 / cadenceDays))`; in particular
`prorate(cadence=14, price=2000) = 4286`, `prorate(30, 2000) = 2000`,
`prorate(90, 2000) = 667`; for a fixed cadence the result is monotonically
non-decreasing in price and for a fixed price inversely monotonic in
cadence. -/
theorem claim_C1_prorate :
    (∀ p c : ℕ, 0 < c →
      prorateTotalCents p c = round ((p : ℚ) * (30 / c))) ∧
    prorateTotalCents 2000 14 = 4286 ∧
    prorateTotalCents 2000 30 = 2000 ∧
    prorateTotalCents 2000 90 = 667 ∧
    (∀ p p' c : ℕ, 0 < c → p ≤ p' →
      prorateTotalCents p c ≤ prorateTotalCents p' c) ∧
    (∀ p c c' : ℕ, 0 < c → c ≤ c' →
      prorateTotalCents p c' ≤ prorateTotalCents p c) := by
  refine ⟨?_, ?_, ?_, ?_, ?_, ?_⟩
  · intro p c _
    show jsRound _ = _
    rw [jsRound, round_eq]
  · show jsRound _ = _
    unfold jsRound
    norm_num [Int.floor_eq_iff]
  · show jsRound _ = _
    unfold jsRound
    norm_num [Int.floor_eq_iff]
  · show jsRound _ = _
    unfold jsRound
    norm_num [Int.floor_eq_iff]
  · intro p p' c _ h
    apply jsRound_le_jsRound
    have hp : (p : ℚ) ≤ (p' : ℚ) := by exact_mod_cast h
    gcongr
  · intro p c c' hc h
    apply jsRound_le_jsRound
    have hc' : (0 : ℚ) < c := by exact_mod_cast hc
    have hcc : (c : ℚ) ≤ (c' : ℚ) := by exact_mod_cast h
    gcongr

/-- Witness for C1 at concrete inputs. -/
theorem claim_C1_prorate_witness :
    prorateTotalCents 2000 15 = round ((2000 : ℚ) * (30 / 15)) ∧
    prorateTotalCents 500 14 ≤ prorateTotalCents 2000 14 ∧
    prorateTotalCents 2000 90 ≤ prorateTotalCents 2000 14 :=
  ⟨claim_C1_prorate.1 2000 15 (by norm_num),
   claim_C1_prorate.2.2.2.2.1 500 2000 14 (by norm_num) (by norm_num),
   claim_C1_prorate.2.2.2.2.2 2000 14 90 (by norm_num) (by norm_num)⟩

/-- Claim C9: canceling an intent cascades to its linked subscriptions —
every subscription whose `intentId` references the canceled intent moves to
status canceled with `canceledAt` set, and such subscriptions are excluded
from subsequent renewal sweeps, which select only active-status
subscriptions whose `nextRenewalAt` is within one day. -/
theorem claim_C9_cancel_cascade (db : DB) (iid : ℕ) (t now : ℤ) :
    (∀ i ∈ (deleteSubscriptionIntent t iid db).intents,
      i.id = iid → i.status = .canceled ∧ i.canceledAt = some t) ∧
    (∀ s ∈ (deleteSubscriptionIntent t iid db).subs,
      s.intentId = some iid → s.status = .canceled ∧ s.canceledAt = some t) ∧
    (∀ s ∈ getSubscriptionsDueForRenewal now (deleteSubscriptionIntent t iid db),
      s.intentId ≠ some iid) ∧
    (∀ s ∈ getSubscriptionsDueForRenewal now db,
      s.status = .active ∧ ∃ d, s.nextRenewalAt = some d ∧ d ≤ now + 1) := by
  refine ⟨?_, ?_, ?_, ?_⟩
  · intro i hi hid
    simp only [deleteSubscriptionIntent, List.mem_map] at hi
    obtain ⟨i0, _, rfl⟩ := hi
    by_cases h : i0.id = iid
    · simp [h]
    · simp only [if_neg h] at hid
      exact absurd hid h
  · intro s hs hsi
    simp only [deleteSubscriptionIntent, List.mem_map] at hs
    obtain ⟨s0, _, rfl⟩ := hs
    by_cases h : s0.intentId = some iid
    · simp [h]
    · simp only [if_neg h] at hsi
      exact absurd hsi h
  · intro s hs hsi
    simp only [getSubscriptionsDueForRenewal, List.mem_filter] at hs
    obtain ⟨hmem, hpred⟩ := hs
    simp only [deleteSubscriptionIntent, List.mem_map] at hmem
    obtain ⟨s0, _, rfl⟩ := hmem
    by_cases h : s0.intentId = some iid
    · simp [h] at hpred
    · simp only [if_neg h] at hsi
      exact absurd hsi h
  · intro s hs
    simp only [getSubscriptionsDueForRenewal, List.mem_filter] at hs
    obtain ⟨_, hpred⟩ := hs
    simp only [Bool.and_eq_true, beq_iff_eq] at hpred
    refine ⟨hpred.1, ?_⟩
    rcases hnext : s.nextRenewalAt with _ | d
    · rw [hnext] at hpred
      simp at hpred
    · rw [hnext] at hpred
      refine ⟨d, rfl, ?_⟩
      have := hpred.2
      simp at this
      exact this

/-- Witness for C9: the cascaded subscription row is canceled with
`canceledAt` set. -/
theorem claim_C9_cancel_cascade_witness :
    (⟨9, 1, some 5, some 2, some 1000, 30, .canceled, some 0, some 3, 3⟩ :
        Subscription).status = .canceled ∧
    (⟨9, 1, some 5, some 2, some 1000, 30, .canceled, some 0, some 3, 3⟩ :
        Subscription).canceledAt = some 3 :=
  (claim_C9_cancel_cascade sampleC9DB 5 3 0).2.1
    ⟨9, 1, some 5, some 2, some 1000, 30, .canceled, some 0, some 3, 3⟩
    (by decide) (by decide)

theorem processDue_eq (env : SweepEnv) (db : DB) (r : Report) (t : ℕ) :
    processDueSubscription env (db, r) t =
      (applyRenewalEffect env db t, addDelta r (classifyDueSubscription env db t)) := by
  simp only [processDueSubscription, classifyDueSubscription, applyRenewalEffect,
    classifyFound, addDelta]
  cases hf : db.subs.find? (fun s => s.id == t) with
  | none => simp [hf]
  | some fullSub =>
    cases ha : fullSub.addressId with
    | none => simp [hf, ha]
    | some aid =>
      cases hfa : db.addresses.find? (fun a => a.id == aid) with
      | none => simp [hf, ha, hfa]
      | some adr =>
        cases hi : fullSub.intentId.bind
            (fun iid => db.intents.find? (fun i => i.id == iid)) with
        | none => simp [hf, ha, hfa, hi]
        | some intent =>
          cases hc : env.checkout t with
          | thrown e => simp [hf, ha, hfa, hi, hc]
          | failedWith e => simp [hf, ha, hfa, hi, hc]
          | ok =>
            by_cases hp : 0 < fullSub.lastPriceCents.getD 0
            · cases hct : env.chargeThrows t with
              | some e => simp [hf, ha, hfa, hi, hc, hp, hct]
              | none => simp [hf, ha, hfa, hi, hc, hp, hct]
            · simp [hf, ha, hfa, hi, hc, hp]

theorem classify_congr (env : SweepEnv) {db db' : DB} (t : ℕ)
    (hview : subView db t = subView db' t)
    (haddr : db.addresses = db'.addresses)
    (hint : db.intents = db'.intents) :
    classifyDueSubscription env db t = classifyDueSubscription env db' t := by
  unfold classifyDueSubscription
  unfold subView at hview
  cases h1 : db.subs.find? (fun s => s.id == t) with
  | none =>
    cases h2 : db'.subs.find? (fun s => s.id == t) with
    | none => rfl
    | some s' => rw [h1, h2] at hview; simp at hview
  | some s =>
    cases h2 : db'.subs.find? (fun s => s.id == t) with
    | none => rw [h1, h2] at hview; simp at hview
    | some s' =>
      rw [h1, h2] at hview
      simp at hview
      obtain ⟨hA, hI, hP⟩ := hview
      simp [haddr, hint, hA, hI, hP]

theorem subView_map_update (db : DB) (t : ℕ) (f : Subscription → Subscription)
    (hid : ∀ s, (f s).id = s.id)
    (hA : ∀ s, (f s).addressId = s.addressId)
    (hI : ∀ s, (f s).intentId = s.intentId)
    (hP : ∀ s, (f s).lastPriceCents = s.lastPriceCents) :
    subView { db with subs := db.subs.map f } t = subView db t := by
  unfold subView
  rw [show ({ db with subs := db.subs.map f } : DB).subs = db.subs.map f from rfl,
    List.find?_map]
  have hpred : ((fun s : Subscription => s.id == t) ∘ f) =
      (fun s : Subscription => s.id == t) := by
    funext s; simp [hid]
  rw [hpred]
  cases h : db.subs.find? (fun s => s.id == t) <;> simp [hA, hI, hP]

theorem subView_updateSubscriptionStatus (now : ℤ) (u : ℕ) (st : SubStatus)
    (db : DB) (t : ℕ) :
    subView (updateSubscriptionStatus now u st db) t = subView db t := by
  apply subView_map_update <;>
    intro s <;> by_cases h : s.id = u <;> simp [h]

theorem subView_advanceNextRenewal (now : ℤ) (u : ℕ) (db : DB) (t : ℕ) :
    subView (advanceNextRenewal now u db) t = subView db t := by
  apply subView_map_update <;>
    intro s <;> by_cases h : s.id = u <;> simp [h]

/-- The state change of a sweep iteration never alters what later items
look up: subscriptions keep their id/address/intent/price columns, and
the address and intent tables are untouched. -/
theorem applyRenewalEffect_views (env : SweepEnv) (db : DB) (u t : ℕ) :
    subView (applyRenewalEffect env db u) t = subView db t ∧
    (applyRenewalEffect env db u).addresses = db.addresses ∧
    (applyRenewalEffect env db u).intents = db.intents := by
  unfold applyRenewalEffect
  dsimp only
  repeat' split
  all_goals
    first
    | exact ⟨rfl, rfl, rfl⟩
    | exact ⟨subView_updateSubscriptionStatus _ _ _ _ _, rfl, rfl⟩
    | exact ⟨subView_advanceNextRenewal _ _ _ _, rfl, rfl⟩

theorem classify_after_effect (env : SweepEnv) (db : DB) (u t : ℕ) :
    classifyDueSubscription env (applyRenewalEffect env db u) t =
      classifyDueSubscription env db t := by
  obtain ⟨h1, h2, h3⟩ := applyRenewalEffect_views env db u t
  exact classify_congr env t h1 h2 h3

/-- Closed form of the sweep report: every due subscription contributes
exactly its own classification, computed against the pre-sweep state —
independent of any failure among the other items. -/
theorem runSweepFrom_report (env : SweepEnv) (ids : List ℕ) :
    ∀ (db : DB) (r : Report),
      (runSweepFrom env (db, r) ids).2 =
        ⟨r.total,
         r.processed +
           (ids.map fun t => (classifyDueSubscription env db t).processed).sum,
         r.succeeded +
           (ids.map fun t => (classifyDueSubscription env db t).succeeded).sum,
         r.failed +
           (ids.map fun t => (classifyDueSubscription env db t).failed).sum,
         r.errors ++
           (ids.map fun t => (classifyDueSubscription env db t).errors).flatten⟩ := by
  induction ids with
  | nil => intro db r; simp [runSweepFrom]
  | cons t ids ih =>
    intro db r
    show (runSweepFrom env (processDueSubscription env (db, r) t) ids).2 = _
    rw [processDue_eq, ih]
    simp only [classify_after_effect, addDelta, List.map_cons, List.sum_cons,
      List.flatten_cons, Nat.add_assoc, List.append_assoc]

/-- Claim C2: a failure while processing one due subscription — whether the
checkout returns failure or the per-item code throws — never aborts the
sweep.  Formally: the report of any sweep is the item-wise sum of each due
subscription's own classification against the pre-sweep state, so no
item's failure influences whether the others are processed; the report has
shape `{total, processed, succeeded, failed, errors[]}` with `total` the
number of due subscriptions; and in the concrete 3-item sweep where item 2
throws, items 1 and 3 are still processed and the report reads
total=3, processed=2, succeeded=2, failed=1. -/
theorem claim_C2_sweep_isolation :
    (∀ (env : SweepEnv) (db : DB) (r : Report) (ids : List ℕ),
      (runSweepFrom env (db, r) ids).2 =
        ⟨r.total,
         r.processed +
           (ids.map fun t => (classifyDueSubscription env db t).processed).sum,
         r.succeeded +
           (ids.map fun t => (classifyDueSubscription env db t).succeeded).sum,
         r.failed +
           (ids.map fun t => (classifyDueSubscription env db t).failed).sum,
         r.errors ++
           (ids.map fun t => (classifyDueSubscription env db t).errors).flatten⟩) ∧
    (∀ (env : SweepEnv) (db : DB),
      (renewalsDuePOST env db).2.total =
        (getSubscriptionsDueForRenewal env.now db).length) ∧
    (renewalsDuePOST sampleSweepEnv sampleSweepDB).2 =
      ⟨3, 2, 2, 1, [(2, ErrTok.thrown 99)]⟩ := by
  refine ⟨fun env db r ids => runSweepFrom_report env ids db r, ?_, ?_⟩
  · intro env db
    show (runSweepFrom env _ _).2.total = _
    rw [runSweepFrom_report]
    simp
  · decide

/-- Claim C6: per due subscription, when every lookup resolves — if the
checkout succeeds, a prorated charge is appended (skipped when the last
known price is unknown or zero) and `nextRenewalAt` is advanced to
`renewalFrequencyDays` after the sweep time, so it sits exactly
`renewalFrequencyDays` ahead of the successful purchase time; if the
checkout fails, the subscription is paused and the error recorded. -/
theorem claim_C6_renewal_item (env : SweepEnv) (db : DB) (r : Report)
    (sid aid iid : ℕ) (fullSub : Subscription) (adr : Address) (intent : Intent)
    (hfind : db.subs.find? (fun s => s.id == sid) = some fullSub)
    (haid : fullSub.addressId = some aid)
    (hadr : db.addresses.find? (fun a => a.id == aid) = some adr)
    (hiid : fullSub.intentId = some iid)
    (hint : db.intents.find? (fun i => i.id == iid) = some intent) :
    (∀ p, fullSub.lastPriceCents = some p → 0 < p → env.checkout sid = .ok →
      env.chargeThrows sid = none →
      processDueSubscription env (db, r) sid =
        (advanceNextRenewal env.now sid
           { db with charges := db.charges ++ [renewalChargeRow fullSub intent p] },
         { r with processed := r.processed + 1, succeeded := r.succeeded + 1 })) ∧
    (env.checkout sid = .ok → fullSub.lastPriceCents.getD 0 = 0 →
      processDueSubscription env (db, r) sid =
        (advanceNextRenewal env.now sid db,
         { r with processed := r.processed + 1, succeeded := r.succeeded + 1 })) ∧
    (∀ (db' : DB), ∀ s ∈ (advanceNextRenewal env.now sid db').subs, s.id = sid →
      s.nextRenewalAt = some (env.now + s.renewalFrequencyDays)) ∧
    (∀ e, env.checkout sid = .failedWith e →
      processDueSubscription env (db, r) sid =
        (updateSubscriptionStatus env.now sid .paused db,
         { r with processed := r.processed + 1, failed := r.failed + 1,
                  errors := r.errors ++ [(sid, .checkoutFailed e)] })) ∧
    (∀ (db' : DB), ∀ s ∈ (updateSubscriptionStatus env.now sid .paused db').subs,
      s.id = sid → s.status = .paused) := by
  refine ⟨?_, ?_, ?_, ?_, ?_⟩
  · intro p hp hppos hok hch
    simp only [processDueSubscription]
    simp [hfind, haid, hadr, hiid, hint, hok, hch, hp, hppos]
  · intro hok hzero
    simp only [processDueSubscription]
    simp [hfind, haid, hadr, hiid, hint, hok, hzero]
  · intro db' s hs hsid
    simp only [advanceNextRenewal, List.mem_map] at hs
    obtain ⟨s0, _, rfl⟩ := hs
    by_cases h : s0.id = sid
    · simp [h]
    · simp only [if_neg h] at hsid ⊢
      exact absurd hsid h
  · intro e hfail
    simp only [processDueSubscription]
    simp [hfind, haid, hadr, hiid, hint, hfail]
  · intro db' s hs hsid
    simp only [updateSubscriptionStatus, List.mem_map] at hs
    obtain ⟨s0, _, rfl⟩ := hs
    by_cases h : s0.id = sid
    · simp [h]
    · simp only [if_neg h] at hsid ⊢
      exact absurd hsid h

/-- Witness for C6 at concrete inputs: subscription 1 of the sample state,
with a successful checkout and a known price of 1000 cents. -/
theorem claim_C6_renewal_item_witness :
    processDueSubscription sampleSweepEnv (sampleSweepDB, ⟨3, 0, 0, 0, []⟩) 1 =
      (advanceNextRenewal 0 1
         { sampleSweepDB with charges :=
             sampleSweepDB.charges ++
               [renewalChargeRow (sampleSweepSub 1) (sampleSweepIntent 1) 1000] },
       ⟨3, 1, 1, 0, []⟩) :=
  (claim_C6_renewal_item sampleSweepEnv sampleSweepDB ⟨3, 0, 0, 0, []⟩
      1 2 11 (sampleSweepSub 1) ⟨2⟩ (sampleSweepIntent 1)
      (by decide) (by decide) (by decide) (by decide) (by decide)).1
    1000 (by decide) (by decide) (by decide) (by decide)

/-- Claim C7: if the strategy execution completes without throwing, the
orchestrator halts before final payment confirmation and returns
`requiresManualIntervention = true`; if an exception is thrown, the run
is marked failed with the error recorded and the orchestrator returns
`success = false`; the external capability is never invoked more than
once per attempt (no retry within an attempt). -/
theorem claim_C7_halt_or_fail (env : CheckoutAttemptEnv)
    (provided : Option RunRow) :
    (∀ out, env.initOk = true → env.act = .ok out →
      (executeCheckout env provided).result.success = true ∧
      (executeCheckout env provided).result.requiresManualIntervention = true ∧
      (executeCheckout env provided).result.interventionReason =
        some paymentConfirmationRequired) ∧
    (∀ e, env.initOk = true → env.act = .error e →
      (executeCheckout env provided).result.success = false ∧
      (executeCheckout env provided).result.requiresManualIntervention = false ∧
      (∃ ro, (executeCheckout env provided).run = some ro ∧
        ro.phase = .failed ∧ ro.error = some e ∧ ro.endedAt = some env.time) ∧
      (executeCheckout env provided).actCalls = 1) ∧
    (env.initOk = false →
      (executeCheckout env provided).result.success = false ∧
      (executeCheckout env provided).actCalls = 0 ∧
      ∀ r, provided = some r →
        (executeCheckout env provided).run =
          some (markRunFailed env.time env.initErr r)) ∧
    (executeCheckout env provided).actCalls ≤ 1 := by
  refine ⟨?_, ?_, ?_, ?_⟩
  · intro out hinit hact
    cases provided <;> simp [executeCheckout, hinit, hact]
  · intro e hinit hact
    cases provided <;> simp [executeCheckout, hinit, hact, markRunFailed]
  · intro hinit
    cases provided <;> simp [executeCheckout, hinit]
  · cases hinit : env.initOk <;> cases hact : env.act <;> cases provided <;>
      simp [executeCheckout, hinit, hact]

/-- Witness for C7: a concrete successful attempt and a concrete throwing
attempt. -/
theorem claim_C7_halt_or_fail_witness :
    ((executeCheckout ⟨true, 0, .ok 5, 4, 9⟩ none).result.success = true ∧
     (executeCheckout ⟨true, 0, .ok 5, 4, 9⟩ none).result.requiresManualIntervention = true ∧
     (executeCheckout ⟨true, 0, .ok 5, 4, 9⟩ none).result.interventionReason =
       some paymentConfirmationRequired) ∧
    ((executeCheckout ⟨true, 0, .error 3, 4, 9⟩ none).result.success = false ∧
     (executeCheckout ⟨true, 0, .error 3, 4, 9⟩ none).result.requiresManualIntervention = false ∧
     (∃ ro, (executeCheckout ⟨true, 0, .error 3, 4, 9⟩ none).run = some ro ∧
       ro.phase = .failed ∧ ro.error = some 3 ∧ ro.endedAt = some 9) ∧
     (executeCheckout ⟨true, 0, .error 3, 4, 9⟩ none).actCalls = 1) :=
  ⟨(claim_C7_halt_or_fail ⟨true, 0, .ok 5, 4, 9⟩ none).1 5 rfl rfl,
   (claim_C7_halt_or_fail ⟨true, 0, .error 3, 4, 9⟩ none).2.1 3 rfl rfl⟩

theorem Phase.rank_le_two (p : Phase) : p.rank ≤ 2 := by
  cases p <;> simp [Phase.rank]

/-- Counterexample for C5 as stated: the claim quantifies over every
operation that mutates an agent run, but the query layer's generic
`updateAgentRun` applies arbitrary partial updates — setting phase to a
terminal value without `endedAt` turns an invariant-satisfying checkout
row into one that violates `endedAt ↔ terminal`. -/
theorem claim_C5_run_invariant_cex :
    runInvariant (freshCheckoutRun none) ∧
    updateAgentRun ⟨some .done, none, none, none⟩ (freshCheckoutRun none) =
      (⟨.done, none, none, none, none⟩ : RunRow) ∧
    ¬ runInvariant
        (updateAgentRun ⟨some .done, none, none, none⟩ (freshCheckoutRun none)) := by
  refine ⟨by decide, rfl, ?_⟩
  intro h
  simp [runInvariant, updateAgentRun, freshCheckoutRun] at h

/-- Claim C5 (amended): every agent-run mutation actually performed at the
source's call sites preserves the invariant — rows are inserted in a
non-terminal phase without `endedAt`, the session update touches neither
phase nor `endedAt`, and the terminal updates set `endedAt` together with
done/failed — and within a checkout attempt on a non-terminal row the
phase progresses monotonically and never leaves a terminal status.  The
generic `updateAgentRun` helper does not itself enforce the invariant
(it has no caller in the source). -/
theorem claim_C5_run_invariant (env : CheckoutAttemptEnv)
    (provided : Option RunRow)
    (hprov : ∀ r, provided = some r →
      runInvariant r ∧ r.phase ≠ .done ∧ r.phase ≠ .failed) :
    (∀ sid, runInvariant (freshCheckoutRun sid)) ∧
    (∀ sid r, runInvariant r →
      runInvariant (setBrowserbaseSession sid r) ∧
      (setBrowserbaseSession sid r).phase = r.phase ∧
      (setBrowserbaseSession sid r).endedAt = r.endedAt) ∧
    (∀ t out r, runInvariant (markRunDone t out r)) ∧
    (∀ t e r, runInvariant (markRunFailed t e r)) ∧
    (∀ s ∈ (executeCheckout env provided).runTrace, runInvariant s) ∧
    List.Chain' (fun a b => phaseStep a.phase b.phase)
      (executeCheckout env provided).runTrace := by
  have hbasic :
      (∀ sid, runInvariant (freshCheckoutRun sid)) ∧
      (∀ sid r, runInvariant r →
        runInvariant (setBrowserbaseSession sid r) ∧
        (setBrowserbaseSession sid r).phase = r.phase ∧
        (setBrowserbaseSession sid r).endedAt = r.endedAt) ∧
      (∀ t out r, runInvariant (markRunDone t out r)) ∧
      (∀ t e r, runInvariant (markRunFailed t e r)) := by
    refine ⟨?_, ?_, ?_, ?_⟩
    · intro sid; simp [runInvariant, freshCheckoutRun]
    · intro sid r h
      exact ⟨by simpa [runInvariant, setBrowserbaseSession] using h, rfl, rfl⟩
    · intro t out r; simp [runInvariant, markRunDone]
    · intro t e r; simp [runInvariant, markRunFailed]
  have hmain : (∀ s ∈ (executeCheckout env provided).runTrace, runInvariant s) ∧
      List.Chain' (fun a b => phaseStep a.phase b.phase)
        (executeCheckout env provided).runTrace := by
    cases hprovided : provided with
    | none =>
      cases hinit : env.initOk with
      | false => simp [executeCheckout, hinit]
      | true =>
        cases hact : env.act with
        | error e =>
          simp only [executeCheckout, hinit, if_true, hact]
          refine ⟨?_, ?_⟩
          · intro s hs
            simp at hs
            rcases hs with rfl | rfl
            · simp [runInvariant, freshCheckoutRun]
            · simp [runInvariant, markRunFailed, freshCheckoutRun]
          · simp [List.chain'_cons, phaseStep, freshCheckoutRun, markRunFailed,
              Phase.rank]
        | ok out =>
          simp only [executeCheckout, hinit, if_true, hact]
          refine ⟨?_, ?_⟩
          · intro s hs
            simp at hs
            rcases hs with rfl | rfl
            · simp [runInvariant, freshCheckoutRun]
            · simp [runInvariant, markRunDone, freshCheckoutRun]
          · simp [List.chain'_cons, phaseStep, freshCheckoutRun, markRunDone,
              Phase.rank]
    | some r =>
      obtain ⟨hrinv, hnd, hnf⟩ := hprov r hprovided
      have hstep : ∀ q : Phase, q.rank = 2 → phaseStep r.phase q := by
        intro q hq2
        refine ⟨by rw [hq2]; exact Phase.rank_le_two _, ?_⟩
        intro hterm
        rcases hterm with h | h
        · exact absurd h hnd
        · exact absurd h hnf
      cases hinit : env.initOk with
      | false =>
        simp only [executeCheckout, hinit, Bool.false_eq_true, if_false]
        refine ⟨?_, ?_⟩
        · intro s hs
          simp at hs
          rcases hs with rfl | rfl
          · exact hrinv
          · simp [runInvariant, markRunFailed]
        · simp only [List.chain'_cons, List.chain'_singleton, and_true]
          exact hstep _ rfl
      | true =>
        cases hact : env.act with
        | error e =>
          simp only [executeCheckout, hinit, if_true, hact]
          refine ⟨?_, ?_⟩
          · intro s hs
            simp at hs
            rcases hs with rfl | rfl | rfl
            · exact hrinv
            · exact (hbasic.2.1 _ _ hrinv).1
            · simp [runInvariant, markRunFailed]
          · simp only [List.cons_append, List.nil_append, List.chain'_cons,
              List.chain'_singleton, and_true]
            exact ⟨⟨le_refl _, fun _ => rfl⟩, hstep _ rfl⟩
        | ok out =>
          simp only [executeCheckout, hinit, if_true, hact]
          refine ⟨?_, ?_⟩
          · intro s hs
            simp at hs
            rcases hs with rfl | rfl | rfl
            · exact hrinv
            · exact (hbasic.2.1 _ _ hrinv).1
            · simp [runInvariant, markRunDone]
          · simp only [List.cons_append, List.nil_append, List.chain'_cons,
              List.chain'_singleton, and_true]
            exact ⟨⟨le_refl _, fun _ => rfl⟩, hstep _ rfl⟩
  exact ⟨hbasic.1, hbasic.2.1, hbasic.2.2.1, hbasic.2.2.2, hmain.1, hmain.2⟩

/-- Witness for C5 (amended) at a concrete attempt: a caller-provided
non-terminal checkout row through a throwing attempt. -/
theorem claim_C5_run_invariant_witness :
    (∀ s ∈ (executeCheckout ⟨true, 0, .error 3, 4, 9⟩
        (some (freshCheckoutRun none))).runTrace, runInvariant s) ∧
    List.Chain' (fun a b => phaseStep a.phase b.phase)
      (executeCheckout ⟨true, 0, .error 3, 4, 9⟩
        (some (freshCheckoutRun none))).runTrace :=
  ⟨(claim_C5_run_invariant ⟨true, 0, .error 3, 4, 9⟩ (some (freshCheckoutRun none))
      (fun r hr => by
        cases hr
        exact ⟨by decide, by decide, by decide⟩)).2.2.2.2.1,
   (claim_C5_run_invariant ⟨true, 0, .error 3, 4, 9⟩ (some (freshCheckoutRun none))
      (fun r hr => by
        cases hr
        exact ⟨by decide, by decide, by decide⟩)).2.2.2.2.2⟩

theorem countP_id_map (l : List TrackedRun) (g : TrackedRun → TrackedRun)
    (hid : ∀ x, (g x).id = x.id) (i : ℕ) :
    ((l.map fun x => if x.id = i then g x else x).countP fun x => x.id == i) =
      l.countP (fun x => x.id == i) := by
  rw [List.countP_map]
  apply List.countP_congr
  intro a _
  by_cases h : a.id = i <;> simp [h, hid]

/-- Claim C3: when a caller supplies a run id it already allocated, run
creation is idempotent — the coordinator updates that row instead of
inserting a second one, so two creates with the same supplied id followed
by one transition to done leave exactly one run row for that id, with
`endedAt` set, and the table gains no row. -/
theorem claim_C3_create_idempotent (runs : List TrackedRun) (i : ℕ)
    (f1 f2 : ℕ) (s1 s2 : Option ℕ) (t : ℤ) (out : ℕ)
    (hcount : (runs.countP fun tr => tr.id == i) = 1) :
    ((transitionRunDone
        ((coordinatorCreate
            ((coordinatorCreate runs (some i) f1 s1).1)
            (some i) f2 s2).1)
        i t out).countP fun tr => tr.id == i) = 1 ∧
    (transitionRunDone
        ((coordinatorCreate
            ((coordinatorCreate runs (some i) f1 s1).1)
            (some i) f2 s2).1)
        i t out).length = runs.length ∧
    (∀ tr ∈ transitionRunDone
        ((coordinatorCreate
            ((coordinatorCreate runs (some i) f1 s1).1)
            (some i) f2 s2).1)
        i t out, tr.id = i →
      tr.row.phase = .done ∧ tr.row.endedAt = some t) := by
  refine ⟨?_, ?_, ?_⟩
  · simp only [coordinatorCreate, transitionRunDone]
    rw [countP_id_map _ (fun x => ⟨x.id, markRunDone t out x.row⟩) (fun x => rfl),
      countP_id_map _ (fun x => ⟨x.id, setBrowserbaseSession s2 x.row⟩) (fun x => rfl),
      countP_id_map _ (fun x => ⟨x.id, setBrowserbaseSession s1 x.row⟩) (fun x => rfl)]
    exact hcount
  · simp [transitionRunDone, coordinatorCreate]
  · intro tr htr hid
    simp only [transitionRunDone, List.mem_map] at htr
    obtain ⟨x, _, rfl⟩ := htr
    by_cases h : x.id = i
    · simp [h, markRunDone]
    · simp only [if_neg h] at hid
      exact absurd hid h

/-- Witness for C3: a table holding exactly the row with id 7. -/
theorem claim_C3_create_idempotent_witness :
    ((transitionRunDone
        ((coordinatorCreate
            ((coordinatorCreate [⟨7, freshCheckoutRun none⟩] (some 7) 8 (some 1)).1)
            (some 7) 9 (some 2)).1)
        7 5 0).countP fun tr => tr.id == 7) = 1 ∧
    (transitionRunDone
        ((coordinatorCreate
            ((coordinatorCreate [⟨7, freshCheckoutRun none⟩] (some 7) 8 (some 1)).1)
            (some 7) 9 (some 2)).1)
        7 5 0).length = [(⟨7, freshCheckoutRun none⟩ : TrackedRun)].length :=
  ⟨(claim_C3_create_idempotent [⟨7, freshCheckoutRun none⟩] 7 8 9 (some 1)
      (some 2) 5 0 (by decide)).1,
   (claim_C3_create_idempotent [⟨7, freshCheckoutRun none⟩] 7 8 9 (some 1)
      (some 2) 5 0 (by decide)).2.1⟩

/-- Claim C4: with the webhook secret configured, a request with a missing
or invalid signature is rejected with a 400 response and zero database
mutation — no handler runs; a successfully handled event returns 200
`{received:true}`; an exception inside a handler returns 500.  A missing
signature is rejected with 400 even before the secret check. -/
theorem claim_C4_webhook_gate (hasSignature signatureValid : Bool)
    (handler : DB → Except DB DB) (db : DB) :
    (hasSignature = false →
      stripeWebhookPOST hasSignature true signatureValid handler db =
        (⟨400, false⟩, db)) ∧
    (signatureValid = false →
      stripeWebhookPOST hasSignature true signatureValid handler db =
        (⟨400, false⟩, db)) ∧
    (∀ db1, hasSignature = true → signatureValid = true →
      handler db = .ok db1 →
      stripeWebhookPOST hasSignature true signatureValid handler db =
        (⟨200, true⟩, db1)) ∧
    (∀ db1, hasSignature = true → signatureValid = true →
      handler db = .error db1 →
      (stripeWebhookPOST hasSignature true signatureValid handler db).1.status
        = 500) ∧
    (∀ secretConfigured, hasSignature = false →
      stripeWebhookPOST hasSignature secretConfigured signatureValid handler db
        = (⟨400, false⟩, db)) := by
  refine ⟨?_, ?_, ?_, ?_, ?_⟩
  · intro h; simp [stripeWebhookPOST, h]
  · intro h
    cases hasSignature <;> simp [stripeWebhookPOST, h]
  · intro db1 h1 h2 hh; simp [stripeWebhookPOST, h1, h2, hh]
  · intro db1 h1 h2 hh; simp [stripeWebhookPOST, h1, h2, hh]
  · intro sc h; simp [stripeWebhookPOST, h]

/-- Witness for C4: concrete invalid-signature, success and
handler-exception requests. -/
theorem claim_C4_webhook_gate_witness :
    (stripeWebhookPOST true true false (fun d => .ok d)
        ⟨[], [], [], [], []⟩ = (⟨400, false⟩, ⟨[], [], [], [], []⟩)) ∧
    (stripeWebhookPOST true true true (fun d => .ok d)
        ⟨[], [], [], [], []⟩ = (⟨200, true⟩, ⟨[], [], [], [], []⟩)) ∧
    (stripeWebhookPOST true true true (fun d => .error d)
        ⟨[], [], [], [], []⟩).1.status = 500 :=
  ⟨(claim_C4_webhook_gate true false (fun d => .ok d) ⟨[], [], [], [], []⟩).2.1 rfl,
   (claim_C4_webhook_gate true true (fun d => .ok d)
      ⟨[], [], [], [], []⟩).2.2.1 ⟨[], [], [], [], []⟩ rfl rfl rfl,
   (claim_C4_webhook_gate true true (fun d => .error d)
      ⟨[], [], [], [], []⟩).2.2.2.1 ⟨[], [], [], [], []⟩ rfl rfl rfl⟩

/-- Claim C10: re-delivering the same checkout.session.completed event is
idempotent for the billing-vehicle record: the handler checks for an
existing row with the event's external recurring-billing id before
inserting, so a second application (at any later time) leaves the state
unchanged, and at most one `stripeFee` row per external id is ever kept. -/
theorem claim_C10_session_idempotent :
    (∀ (n1 n2 : ℤ) (s : CheckoutSession) (db : DB),
      handleCheckoutSessionCompleted n2 s (handleCheckoutSessionCompleted n1 s db)
        = handleCheckoutSessionCompleted n1 s db) ∧
    (∀ (n : ℤ) (s : CheckoutSession) (db : DB) (sid : ℕ),
      (db.fees.countP fun f => f.stripeSubscriptionId == sid) ≤ 1 →
      ((handleCheckoutSessionCompleted n s db).fees.countP
          fun f => f.stripeSubscriptionId == sid) ≤ 1) := by
  constructor
  · intro n1 n2 s db
    unfold handleCheckoutSessionCompleted
    by_cases hm : s.mode ≠ .subscriptionMode
    · simp [hm]
    · simp only [hm, if_false]
      cases hu : s.userId with
      | none => simp
      | some u =>
        cases hsid : s.subscriptionId with
        | none => simp
        | some sid =>
          cases hfind : db.fees.find? (fun f => f.stripeSubscriptionId == sid) with
          | some f => simp [hfind]
          | none =>
              simp only [hfind]
              have : ({ db with fees :=
                  db.fees ++ [⟨u, sid, 100, .active, none, n1⟩] } : DB).fees.find?
                    (fun f => f.stripeSubscriptionId == sid) ≠ none := by
                intro hnone
                rw [List.find?_eq_none] at hnone
                exact absurd (by simp)
                  (hnone ⟨u, sid, 100, .active, none, n1⟩ (by simp))
              cases hfind2 : ({ db with fees :=
                  db.fees ++ [⟨u, sid, 100, .active, none, n1⟩] } : DB).fees.find?
                    (fun f => f.stripeSubscriptionId == sid) with
              | none => exact absurd hfind2 this
              | some f => simp [hfind2]
  · intro n s db sid hle
    unfold handleCheckoutSessionCompleted
    by_cases hm : s.mode ≠ .subscriptionMode
    · simp [hm, hle]
    · simp only [hm, if_false]
      cases hu : s.userId with
      | none => simpa using hle
      | some u =>
        cases hsid : s.subscriptionId with
        | none => simpa using hle
        | some sid' =>
          cases hfind : db.fees.find? (fun f => f.stripeSubscriptionId == sid') with
          | some f => simp only [hfind]; exact hle
          | none =>
              simp only [hfind, List.countP_append]
              by_cases heq : sid' = sid
              · subst heq
                have hzero : (db.fees.countP fun f =>
                    f.stripeSubscriptionId == sid') = 0 := by
                  rw [List.countP_eq_zero]
                  intro f hf
                  rw [List.find?_eq_none] at hfind
                  exact hfind f hf
                rw [hzero]
                simp [List.countP_cons]
              · have hz : (List.countP (fun f => f.stripeSubscriptionId == sid)
                    [(⟨u, sid', 100, .active, none, n⟩ : Fee)]) = 0 := by
                  simp [List.countP_cons, heq]
                rw [hz]
                simpa using hle

/-- Witness for C10: a state with no row for id 42 keeps at most one
after the handler runs. -/
theorem claim_C10_session_idempotent_witness :
    ((handleCheckoutSessionCompleted 0 ⟨.subscriptionMode, some 1, some 42⟩
        ⟨[], [], [], [], []⟩).fees.countP
      fun f => f.stripeSubscriptionId == 42) ≤ 1 :=
  claim_C10_session_idempotent.2 0 ⟨.subscriptionMode, some 1, some 42⟩
    ⟨[], [], [], [], []⟩ 42 (by decide)

/-- Counterexample for C8 as stated: two active subscriptions of the owner,
both with known price and resolvable intent; appending the charge for
subscription 1 throws.  The handler then appends nothing at all — in
particular subscription 2, whose own append would have succeeded, receives
no charge, so one subscription's failure does block the remaining
subscriptions. -/
theorem claim_C8_invoice_cex :
    (handleInvoiceCreated (fun sid => sid != 1) ⟨some 77, some 5⟩
        sampleInvoiceDB).charges = [] ∧
    (sampleInvoiceDB.subs.filter fun s =>
        s.userId == 1 && s.status == .active) =
      [sampleSweepSub 1, sampleSweepSub 2] ∧
    invoiceChargeFor sampleInvoiceDB.intents (sampleSweepSub 2) =
      some (invoiceChargeRow (sampleSweepSub 2) (sampleSweepIntent 2) 1000) ∧
    (fun sid : ℕ => sid != 1) 2 = true := by
  refine ⟨by decide, by decide, rfl, by decide⟩

theorem appendInvoiceItems_all_ok (appendOk : ℕ → Bool)
    (subs : List Subscription) :
    ∀ db : DB, (∀ s ∈ subs, appendOk s.id = true) →
      appendInvoiceItems appendOk db subs =
        { db with charges :=
            db.charges ++ subs.filterMap (invoiceChargeFor db.intents) } := by
  induction subs with
  | nil => intro db _; simp [appendInvoiceItems]
  | cons s rest ih =>
    intro db hok
    have hoks : ∀ x ∈ rest, appendOk x.id = true :=
      fun x hx => hok x (List.mem_cons_of_mem s hx)
    have hokhead : appendOk s.id = true := hok s (List.mem_cons_self s rest)
    cases hpc : s.lastPriceCents with
    | none =>
      simp only [appendInvoiceItems, hpc]
      rw [ih db hoks]
      simp [List.filterMap_cons, invoiceChargeFor, hpc]
    | some price =>
      by_cases hz : price = 0
      · subst hz
        simp only [appendInvoiceItems, hpc, if_pos rfl]
        rw [ih db hoks]
        simp [List.filterMap_cons, invoiceChargeFor, hpc]
      · cases hint : s.intentId.bind
            (fun iid => db.intents.find? fun i => i.id == iid) with
        | none =>
          simp only [appendInvoiceItems, hpc, if_neg hz, hint]
          rw [ih db hoks]
          simp [List.filterMap_cons, invoiceChargeFor, hpc, hint, hz]
        | some intent =>
          simp only [appendInvoiceItems, hpc, if_neg hz, hint, if_pos hokhead]
          rw [ih _ hoks]
          simp [List.filterMap_cons, invoiceChargeFor, hpc, hint, hz,
            List.append_assoc]

theorem appendInvoiceItems_stops (appendOk : ℕ → Bool)
    (xs : List Subscription) (s : Subscription) (ys : List Subscription)
    (c : Charge) :
    ∀ db : DB, (∀ x ∈ xs, appendOk x.id = true) →
      invoiceChargeFor db.intents s = some c → appendOk s.id = false →
      appendInvoiceItems appendOk db (xs ++ s :: ys) =
        { db with charges :=
            db.charges ++ xs.filterMap (invoiceChargeFor db.intents) } := by
  induction xs with
  | nil =>
    intro db _ hc hfail
    unfold invoiceChargeFor at hc
    cases hpc : s.lastPriceCents with
    | none => rw [hpc] at hc; cases hc
    | some price =>
      rw [hpc] at hc
      dsimp only at hc
      by_cases hz : price = 0
      · rw [if_pos hz] at hc; cases hc
      · rw [if_neg hz] at hc
        cases hint : s.intentId.bind
            (fun iid => db.intents.find? fun i => i.id == iid) with
        | none => rw [hint] at hc; cases hc
        | some intent =>
          simp only [List.nil_append, appendInvoiceItems, hpc, if_neg hz, hint,
            hfail]
          simp
  | cons x xs' ih =>
    intro db hok hc hfail
    have hoks : ∀ y ∈ xs', appendOk y.id = true :=
      fun y hy => hok y (List.mem_cons_of_mem x hy)
    have hokhead : appendOk x.id = true := hok x (List.mem_cons_self x xs')
    rw [List.cons_append]
    cases hpc : x.lastPriceCents with
    | none =>
      simp only [appendInvoiceItems, hpc]
      rw [ih db hoks hc hfail]
      simp [List.filterMap_cons, invoiceChargeFor, hpc]
    | some price =>
      by_cases hz : price = 0
      · subst hz
        simp only [appendInvoiceItems, hpc, if_pos rfl]
        rw [ih db hoks hc hfail]
        simp [List.filterMap_cons, invoiceChargeFor, hpc]
      · cases hint : x.intentId.bind
            (fun iid => db.intents.find? fun i => i.id == iid) with
        | none =>
          simp only [appendInvoiceItems, hpc, if_neg hz, hint]
          rw [ih db hoks hc hfail]
          simp [List.filterMap_cons, invoiceChargeFor, hpc, hint, hz]
        | some intent =>
          simp only [appendInvoiceItems, hpc, if_neg hz, hint, if_pos hokhead]
          rw [ih _ hoks (by simpa using hc) hfail]
          simp [List.filterMap_cons, invoiceChargeFor, hpc, hint, hz,
            List.append_assoc]

/-- Claim C8 (amended): when a new periodic invoice opens, the reconciler
appends one charge per active subscription of the owner, prorated from the
subscription's last known price and cadence (skipping rows with unknown or
zero price or unresolvable intent); a failure while appending one
subscription's charge stops the remaining appends of that invoice — it
does not abort invoice processing (the handler swallows the error and the
charges already appended are kept), but the remaining subscriptions
receive no charge until another delivery. -/
theorem claim_C8_invoice_created (appendOk : ℕ → Bool) (inv : StripeInvoice)
    (db : DB) (subscrId cust : ℕ) (feeRec : Fee)
    (hsub : inv.subscriptionId = some subscrId)
    (hcust : inv.customerId = some cust)
    (hfee : db.fees.find? (fun f => f.stripeSubscriptionId == subscrId)
      = some feeRec) :
    ((∀ s ∈ db.subs.filter (fun s =>
        s.userId == feeRec.userId && s.status == .active), appendOk s.id = true) →
      handleInvoiceCreated appendOk inv db =
        { db with charges := db.charges ++
            ((db.subs.filter fun s =>
                s.userId == feeRec.userId && s.status == .active).filterMap
              (invoiceChargeFor db.intents)) }) ∧
    (∀ (xs : List Subscription) (s : Subscription) (ys : List Subscription)
        (c : Charge),
      (db.subs.filter fun s => s.userId == feeRec.userId && s.status == .active)
        = xs ++ s :: ys →
      (∀ x ∈ xs, appendOk x.id = true) →
      invoiceChargeFor db.intents s = some c → appendOk s.id = false →
      handleInvoiceCreated appendOk inv db =
        { db with charges := db.charges ++
            xs.filterMap (invoiceChargeFor db.intents) }) := by
  constructor
  · intro hall
    unfold handleInvoiceCreated
    rw [hsub, hcust]
    dsimp only
    rw [hfee]
    exact appendInvoiceItems_all_ok appendOk _ db hall
  · intro xs s ys c hsplit hok hc hfail
    unfold handleInvoiceCreated
    rw [hsub, hcust]
    dsimp only
    rw [hfee]
    dsimp only
    rw [hsplit]
    exact appendInvoiceItems_stops appendOk xs s ys c db hok hc hfail

/-- Witness for C8 (amended): in the sample state, when appending for
subscription 1 throws, the invoice keeps exactly the charges of the empty
prefix before it. -/
theorem claim_C8_invoice_created_witness :
    handleInvoiceCreated (fun sid => sid != 1) ⟨some 77, some 5⟩
        sampleInvoiceDB =
      { sampleInvoiceDB with
          charges := sampleInvoiceDB.charges ++
            List.filterMap (invoiceChargeFor sampleInvoiceDB.intents) [] } :=
  (claim_C8_invoice_created (fun sid => sid != 1) ⟨some 77, some 5⟩
      sampleInvoiceDB 77 5 ⟨1, 77, 100, .active, none, 0⟩ rfl rfl (by decide)).2
    [] (sampleSweepSub 1) [sampleSweepSub 2]
    (invoiceChargeRow (sampleSweepSub 1) (sampleSweepIntent 1) 1000)
    (by decide) (by simp) rfl (by decide)

end Charm

